import Mathlib

/-!
Shallow embedding of the school-campus incident-visualization app
(src/App.tsx) and proofs about its specified behaviour.

Modelling conventions:
* JavaScript strings are Lean String values.  The source only uses
  startsWith, slice and string equality on them; startsWith and slice are
  re-implemented over the character list so that the kernel can evaluate
  them (the core String.startsWith is byte-position based and does not
  reduce).
* The date field of an incident is a date string in the source, consumed
  exclusively through the total order induced by new Date(s).getTime();
  it is modelled directly as that timestamp, a natural number.
* Scene-object and material reference identity (the three.js object
  graph) is modelled by natural-number identifiers; the current material
  of each object is a heap-style map from object id to material
  reference, so that Lean equality of identifiers is JavaScript
  reference equality.
* Number-valued fields that never overflow in the source (counts,
  coordinates) are modelled as Int and as exact rationals respectively.
-/

/-- JavaScript s.startsWith(p): s begins with the character sequence p. -/
def jsStartsWith (s p : String) : Bool :=
  decide (s.data.take p.data.length = p.data)

/-- JavaScript String.prototype.slice with two whole-number arguments:
negative indices count from the end and indices are clamped to the range
from 0 to the string length. -/
def jsSlice (s : String) (start stop : Int) : String :=
  let len : Int := s.length
  let a : Int := if start < 0 then max (len + start) 0 else min start len
  let b : Int := if stop < 0 then max (len + stop) 0 else min stop len
  ((s.data.drop a.toNat).take (b - a).toNat).asString

/-- An incident record (interface Incident, src/App.tsx). -/
structure Incident where
  id : Nat
  date : Nat
  location : String
  count : Int
  cause : String
deriving DecidableEq

/-- Shape of a facility mesh (the type field of interface Facility). -/
inductive FacilityKind where
  | box
  | plane
deriving DecidableEq

/-- A facility of the static registry (interface Facility, src/App.tsx). -/
structure Facility where
  name : String
  position : Rat × Rat × Rat
  size : Rat × Rat × Rat
  color : String
  type : FacilityKind
deriving DecidableEq

/-- The selectable facilities (const facilities, src/App.tsx lines 60-73). -/
def facilities : List Facility :=
  [⟨"본관동 - 교실", (-15, 5, 2.5), (1, 1, 1), "", FacilityKind.box⟩,
   ⟨"본관동 - 복도", (-15, 5, 0), (1, 1, 1), "", FacilityKind.box⟩,
   ⟨"본관동 - 화장실", (-15, 5, -8), (1, 1, 1), "", FacilityKind.box⟩,
   ⟨"체육관", (15, 4, 10), (15, 8, 12), "#0000FF", FacilityKind.box⟩,
   ⟨"정보화동", (15, 2, -10), (10, 4, 8), "#008000", FacilityKind.box⟩,
   ⟨"운동장", (0, 0.05, 0), (20, 30, 0), "#A0522D", FacilityKind.plane⟩,
   ⟨"급식실", (-5, 1.5, 15), (8, 3, 6), "#FFA500", FacilityKind.box⟩,
   ⟨"학생식당", (-5, 1.5, 22), (8, 3, 8), "#2DD4BF", FacilityKind.box⟩,
   ⟨"창고", (20, 1, 0), (4, 2, 4), "#A9A9A9", FacilityKind.box⟩]

/-- const facilityLocations, src/App.tsx line 75. -/
def facilityLocations : List String :=
  facilities.map (fun f => f.name)

/-- A decorative part of the main building (src/App.tsx lines 45-57). -/
structure MainBuildingPart where
  position : Rat × Rat × Rat
  size : Rat × Rat × Rat
  color : String
deriving DecidableEq

/-- const mainBuildingParts, keyed by sub-location name, in insertion
order of the source literal. -/
def mainBuildingParts : List (String × List MainBuildingPart) :=
  [("본관동 - 교실",
    [⟨(-18, 2.4, 6.5), (4, 4.8, 6), "#F59E0B"⟩,
     ⟨(-12, 2.4, 6.5), (4, 4.8, 6), "#F59E0B"⟩,
     ⟨(-18, 2.4, -1.5), (4, 4.8, 6), "#F59E0B"⟩,
     ⟨(-12, 2.4, -1.5), (4, 4.8, 6), "#F59E0B"⟩]),
   ("본관동 - 복도", [⟨(-15, 2.4, 0), (2, 4.8, 20), "#D1D5DB"⟩]),
   ("본관동 - 화장실",
    [⟨(-18, 2.4, -8), (4, 4.8, 4), "#60A5FA"⟩,
     ⟨(-12, 2.4, -8), (4, 4.8, 4), "#60A5FA"⟩])]

/-- const truncate, src/App.tsx lines 77-79:
(str.length > n) ? str.slice(0, n - 1) + three dots : str.
The bound is a JavaScript number, so the subtraction n - 1 is carried
out in Int (at n = 0 it yields -1, which slice counts from the end). -/
def truncate (str : String) (n : Nat) : String :=
  if str.length > n then jsSlice str 0 ((n : Int) - 1) ++ "..." else str

/-- The cause text rendered for an incident in the list panel
(src/App.tsx line 587): truncate(incident.cause, 25). -/
def renderedCause (incident : Incident) : String :=
  truncate incident.cause 25

/-- One value of the aggregation record built by mainBuildingAggregated
(src/App.tsx lines 434-445). -/
structure AggEntry where
  count : Int
  latestIncident : Incident
deriving DecidableEq

/-- In-place update of every entry of an association list whose key is
loc (the JavaScript object field assignment acc[incident.location]). -/
def updateAt (loc : String) (g : AggEntry → AggEntry) (acc : List (String × AggEntry)) :
    List (String × AggEntry) :=
  acc.map (fun p => if p.1 = loc then (p.1, g p.2) else p)

/-- One step of the reduce building mainBuildingAggregated
(src/App.tsx lines 434-445): main-building incidents create a fresh
entry with count 0 and themselves as latestIncident when their
sub-location key is absent, then add their count and replace the latest
incident exactly when their date is strictly greater. -/
def aggStep (acc : List (String × AggEntry)) (i : Incident) : List (String × AggEntry) :=
  if jsStartsWith i.location "본관동" then
    let acc1 :=
      if (acc.find? (fun p => decide (p.1 = i.location))).isSome then acc
      else acc ++ [(i.location, ⟨0, i⟩)]
    updateAt i.location
      (fun e => ⟨e.count + i.count,
        if i.date > e.latestIncident.date then i else e.latestIncident⟩) acc1
  else acc

/-- const mainBuildingAggregated (src/App.tsx lines 434-445), as an
insertion-ordered association list, which is how a JavaScript object
with non-numeric string keys behaves. -/
def mainBuildingAggregated (incidents : List Incident) : List (String × AggEntry) :=
  incidents.foldl aggStep []

/-- Key lookup in the aggregation record. -/
def lookupAgg (agg : List (String × AggEntry)) (k : String) : Option AggEntry :=
  (agg.find? (fun p => decide (p.1 = k))).map (fun p => p.2)

/-- Reference aggregation of a single sub-location incident list:
running sum of counts and running latest incident with strict-greater
replacement.  Used to characterize mainBuildingAggregated per key. -/
def runAgg (l : List Incident) : Option AggEntry :=
  l.foldl
    (fun acc i =>
      match acc with
      | none => some ⟨i.count, i⟩
      | some e =>
          some ⟨e.count + i.count,
            if i.date > e.latestIncident.date then i else e.latestIncident⟩)
    none

/-- Sum of the count fields of a list of incidents. -/
def sumCounts (l : List Incident) : Int :=
  (l.map (fun i => i.count)).sum

/-- The clickable aggregated label created for one main-building
sub-location (src/App.tsx lines 462-483).  Purely visual fields (DOM
node, screen position, short name) are omitted; the displayed count,
the tagged latest incident and the highlight flag are kept. -/
structure MainLabel where
  location : String
  count : Int
  latestIncident : Incident
  highlighted : Bool
deriving DecidableEq

/-- The aggregated labels built by the overlay-synchronization effect
(src/App.tsx lines 447-484): one label per aggregated sub-location that
has decorative parts defined and a registered facility. -/
def mainBuildingLabels (incidents : List Incident) (highlightedIncidentId : Option Nat) :
    List MainLabel :=
  (mainBuildingAggregated incidents).filterMap (fun p =>
    match mainBuildingParts.find? (fun q => decide (q.1 = p.1)) with
    | none => none
    | some _ =>
      match facilities.find? (fun f => decide (f.name = p.1)) with
      | none => none
      | some _ =>
          some ⟨p.1, p.2.count, p.2.latestIncident,
            decide (highlightedIncidentId = some p.2.latestIncident.id)⟩)

/-- The per-incident marker created for a non-main-building incident
(src/App.tsx lines 486-510).  The marker displays the raw count of its
tagged incident; visual fields are omitted. -/
structure Marker where
  incident : Incident
  highlighted : Bool
deriving DecidableEq

/-- The markers built by the overlay-synchronization effect
(src/App.tsx lines 486-510): incidents at a main-building sub-location
are handled by the aggregation, and incidents whose location is not a
registered facility name are skipped. -/
def incidentMarkers (incidents : List Incident) (highlightedIncidentId : Option Nat) :
    List Marker :=
  incidents.filterMap (fun i =>
    if jsStartsWith i.location "본관동" then none
    else
      match facilities.find? (fun f => decide (f.name = i.location)) with
      | none => none
      | some _ => some ⟨i, decide (highlightedIncidentId = some i.id)⟩)

/-- A material reference (THREE.Material or THREE.Material[]); the
identifiers model JavaScript reference identity. -/
inductive MatRef where
  | single (matId : Nat)
  | arr (matIds : List Nat)
deriving DecidableEq

/-- The static part of a scene object: identity, name, the
userData.location tag, and whether its type is Group. -/
structure SceneObject where
  oid : Nat
  name : String
  userLoc : Option String
  isGroup : Bool
deriving DecidableEq

/-- State touched by the highlight controller: the scene graph in
traversal order, the current material of every object (none when the
object has no material property), the highlightedObjectsRef record
list, and a counter providing fresh identities for clones. -/
structure HighlightState where
  scene : List SceneObject
  mats : Nat → Option MatRef
  highlighted : List (Nat × MatRef)
  nextMatId : Nat

/-- Pointwise update of the material map at one object identity. -/
def setMat (m : Nat → Option MatRef) (k : Nat) (v : Option MatRef) : Nat → Option MatRef :=
  fun j => if j = k then v else m j

/-- Restore every recorded original material, in record order. -/
def restoreAll (hl : List (Nat × MatRef)) (m : Nat → Option MatRef) : Nat → Option MatRef :=
  hl.foldl (fun m p => setMat m p.1 (some p.2)) m

/-- unhighlightAllObjects (src/App.tsx lines 111-116): assign each
recorded original material back to its object, then empty the record
list. -/
def unhighlightAllObjects (s : HighlightState) : HighlightState :=
  { s with mats := restoreAll s.highlighted s.mats, highlighted := [] }

/-- Material cloning (m.clone(), or element-wise map for an array);
clones receive fresh identities from the counter.  The emissive and
color mutations applied to the clone change its contents, never its
identity, so they are not represented. -/
def cloneMat (nextMatId : Nat) : MatRef → MatRef × Nat
  | MatRef.single _ => (MatRef.single nextMatId, nextMatId + 1)
  | MatRef.arr ids =>
      (MatRef.arr ((List.range ids.length).map (fun j => nextMatId + j)), nextMatId + ids.length)

/-- The match predicate of the scene traversal (src/App.tsx line 125):
object.name === locationName or object.userData.location === locationName. -/
def matchesLocation (o : SceneObject) (locationName : String) : Bool :=
  decide (o.name = locationName) || decide (o.userLoc = some locationName)

/-- The objectsToHighlight list (src/App.tsx lines 123-133): every
scene object matching the location in traversal order; when the
location is a main-building sub-location, additionally the main
building wireframe frame found by name. -/
def collectTargets (scene : List SceneObject) (locationName : String) : List SceneObject :=
  scene.filter (fun o => matchesLocation o locationName) ++
    (if jsStartsWith locationName "본관동" then
      match scene.find? (fun o => decide (o.name = "본관동")) with
      | some frame => [frame]
      | none => []
    else [])

/-- Body of the forEach of highlightObjectsByLocation (src/App.tsx
lines 135-165): skip groups and objects without a material, read the
current material, skip objects already recorded this pass, otherwise
record the original, clone it and assign the clone. -/
def highlightStep (s : HighlightState) (obj : SceneObject) : HighlightState :=
  if obj.isGroup then s
  else
    match s.mats obj.oid with
    | none => s
    | some originalMaterial =>
      if s.highlighted.any (fun h => decide (h.1 = obj.oid)) then s
      else
        let c := cloneMat s.nextMatId originalMaterial
        { s with
          mats := setMat s.mats obj.oid (some c.1),
          highlighted := s.highlighted ++ [(obj.oid, originalMaterial)],
          nextMatId := c.2 }

/-- highlightObjectsByLocation (src/App.tsx lines 118-166): clear all
existing highlights, then process every collected target in order.
The scene reference is always present here (it is nulled only at
teardown), so the early return on a missing scene is not represented. -/
def highlightObjectsByLocation (s : HighlightState) (locationName : String) : HighlightState :=
  let s0 := unhighlightAllObjects s
  (collectTargets s0.scene locationName).foldl highlightStep s0

/-- Tooltip content (interface TooltipData, content field). -/
structure TooltipContent where
  date : Nat
  cause : String
deriving DecidableEq

/-- interface TooltipData, src/App.tsx lines 24-32. -/
structure TooltipData where
  x : Int
  y : Int
  visible : Bool
  content : TooltipContent
deriving DecidableEq

/-- The nearest intersected object of a pointer ray: its identity and
the incident possibly attached in its userData. -/
structure HitObject where
  oid : Nat
  incident : Option Incident
deriving DecidableEq

/-- State read and written by the pointer-move handler: the tooltip
React state and the hoveredObject closure variable. -/
structure PointerState where
  tooltip : TooltipData
  hovered : Option Nat
deriving DecidableEq

/-- onMouseMove (src/App.tsx lines 363-393).  The raycast result is
passed in as the nearest hit (none when the ray intersects nothing).
With an incident selected the handler returns immediately.  On a hit
that differs from the current hover the hover is retargeted and, when
the hit carries an incident, the tooltip is fully repopulated and made
visible; the tooltip position is then set to the raw pointer
coordinates on every hit.  On a miss with an active hover the hover is
dropped and the tooltip hidden; on a miss without one nothing happens. -/
def onMouseMove (selectedIncident : Option Incident) (st : PointerState) (evX evY : Int)
    (hit : Option HitObject) : PointerState :=
  if selectedIncident.isSome then st
  else
    match hit with
    | some firstIntersect =>
      let st1 :=
        if st.hovered ≠ some firstIntersect.oid then
          { st with
            hovered := some firstIntersect.oid,
            tooltip :=
              match firstIntersect.incident with
              | some inc =>
                  { x := evX, y := evY, visible := true,
                    content := ⟨inc.date, inc.cause⟩ }
              | none => st.tooltip }
        else st
      { st1 with tooltip := { st1.tooltip with x := evX, y := evY } }
    | none =>
      if st.hovered.isSome then
        { st with hovered := none, tooltip := { st.tooltip with visible := false } }
      else st

/-- The validated form data of one submission (date, location, count,
cause), after the HTML-level parsing of src/App.tsx lines 517-523. -/
structure IncidentForm where
  date : Nat
  location : String
  count : Int
  cause : String
deriving DecidableEq

/-- handleAddIncident (src/App.tsx lines 515-527): build a new incident
whose id is Date.now() at submission time and append it to the store. -/
def handleAddIncident (incidents : List Incident) (now : Nat) (form : IncidentForm) :
    List Incident :=
  incidents ++
    [{ id := now, date := form.date, location := form.location,
       count := form.count, cause := form.cause }]

/-- The store reached from the empty initial state by a sequence of
form submissions, each carrying its Date.now() value and form data. -/
def addIncidents (subs : List (Nat × IncidentForm)) : List Incident :=
  subs.foldl (fun s p => handleAddIncident s p.1 p.2) []

/-- const sortedIncidents (src/App.tsx lines 535-537): the store sorted
by the comparator (a, b) => b.date - a.date, that is, stably sorted by
date in descending order (Array.prototype.sort is stable). -/
def sortedIncidents (incidents : List Incident) : List Incident :=
  List.insertionSort (fun a b => b.date ≤ a.date) incidents

instance : IsTotal Incident (fun a b => b.date ≤ a.date) :=
  ⟨fun a b => Nat.le_total b.date a.date⟩

instance : IsTrans Incident (fun a b => b.date ≤ a.date) :=
  ⟨fun _ _ _ h1 h2 => Nat.le_trans h2 h1⟩

/-- A concrete material heap used to exercise the highlight controller. -/
def demoMats : Nat → Option MatRef := fun k =>
  if k = 0 then some (MatRef.single 10)
  else if k = 1 then some (MatRef.arr [20, 21])
  else if k = 2 then some (MatRef.single 30)
  else none

/-- A concrete scene used to exercise the highlight controller. -/
def demoScene : List SceneObject :=
  [⟨0, "체육관", some "체육관", false⟩, ⟨1, "본관동", none, false⟩, ⟨2, "급식실", none, false⟩]

/-- A concrete highlight-controller state with no active highlights. -/
def demoState : HighlightState :=
  ⟨demoScene, demoMats, [], 100⟩

/-- A concrete incident store used to exercise the overlay builders:
two incidents at the classroom sub-location and one at the gymnasium. -/
def demoIncidents : List Incident :=
  [⟨1, 100, "본관동 - 교실", 2, "a"⟩, ⟨2, 200, "본관동 - 교실", 5, "b"⟩,
   ⟨3, 150, "체육관", 3, "c"⟩]

/-! ## Theorems -/

/-- Lookup of the aggregation record is unchanged at other keys and
mapped through the update at the updated key. -/
theorem lookupAgg_updateAt (loc : String) (g : AggEntry → AggEntry)
    (acc : List (String × AggEntry)) (k : String) :
    lookupAgg (updateAt loc g acc) k =
      if k = loc then (lookupAgg acc k).map g else lookupAgg acc k := by
  have hcomp :
      (fun p : String × AggEntry => decide (p.1 = k)) ∘
          (fun p : String × AggEntry => if p.1 = loc then (p.1, g p.2) else p) =
        fun p : String × AggEntry => decide (p.1 = k) := by
    funext p
    by_cases hp : p.1 = loc <;> simp [hp]
  rw [lookupAgg, updateAt, List.find?_map, hcomp]
  cases hfind : acc.find? (fun p => decide (p.1 = k)) with
  | none => simp [lookupAgg, hfind]
  | some p =>
      have hp : p.1 = k := by simpa using List.find?_some hfind
      by_cases hk : k = loc
      · subst hk
        simp [lookupAgg, hfind, hp]
      · have : ¬ p.1 = loc := by rw [hp]; exact hk
        simp [lookupAgg, hfind, this, hk]

/-- Appending a fresh entry does not change lookup at other keys. -/
theorem lookupAgg_append_ne (acc : List (String × AggEntry)) (loc : String) (e : AggEntry)
    (k : String) (h : k ≠ loc) :
    lookupAgg (acc ++ [(loc, e)]) k = lookupAgg acc k := by
  rw [lookupAgg, List.find?_append]
  cases hfind : acc.find? (fun p => decide (p.1 = k)) with
  | none => simp [lookupAgg, hfind, List.find?, Ne.symm h]
  | some p => simp [lookupAgg, hfind]

/-- Appending a fresh entry at an absent key makes lookup find it. -/
theorem lookupAgg_append_self (acc : List (String × AggEntry)) (loc : String) (e : AggEntry)
    (h : acc.find? (fun p => decide (p.1 = loc)) = none) :
    lookupAgg (acc ++ [(loc, e)]) loc = some e := by
  rw [lookupAgg, List.find?_append, h]
  simp [List.find?]

/-- The aggregation fold splits off its last step. -/
theorem runAgg_append (l : List Incident) (i : Incident) :
    runAgg (l ++ [i]) =
      match runAgg l with
      | none => some ⟨i.count, i⟩
      | some e =>
          some ⟨e.count + i.count,
            if i.date > e.latestIncident.date then i else e.latestIncident⟩ := by
  rw [runAgg, List.foldl_append]
  rfl

/-- The reference aggregation is empty only on the empty list. -/
theorem runAgg_eq_none (l : List Incident) (h : runAgg l = none) : l = [] := by
  induction l using List.reverseRecOn with
  | nil => rfl
  | append_singleton t i ih =>
      rw [runAgg_append] at h
      cases ht : runAgg t <;> simp [ht] at h

/-- Per-key characterization of mainBuildingAggregated: looking up a
key of the aggregation record is the reference aggregation of the
incidents at exactly that location, and main-building keys are the only
keys present. -/
theorem lookupAgg_mainBuildingAggregated (P : List Incident) (k : String) :
    lookupAgg (mainBuildingAggregated P) k =
      if jsStartsWith k "본관동" then
        runAgg (P.filter (fun i => decide (i.location = k)))
      else none := by
  induction P using List.reverseRecOn with
  | nil =>
      cases h : jsStartsWith k "본관동" <;>
        simp [mainBuildingAggregated, lookupAgg, runAgg, h, List.find?]
  | append_singleton P i ih =>
      have hfold : mainBuildingAggregated (P ++ [i]) =
          aggStep (mainBuildingAggregated P) i := by
        rw [mainBuildingAggregated, mainBuildingAggregated, List.foldl_append]
        rfl
      rw [hfold, List.filter_append]
      cases hstart : jsStartsWith i.location "본관동" with
      | false =>
          have hstep : aggStep (mainBuildingAggregated P) i = mainBuildingAggregated P := by
            rw [aggStep, hstart]
            rfl
          rw [hstep, ih]
          by_cases hk : i.location = k
          · have : jsStartsWith k "본관동" = false := by rw [← hk]; exact hstart
            simp [this]
          · simp [hk]
      | true =>
          by_cases hk : i.location = k
          · subst hk
            have hkstart : jsStartsWith i.location "본관동" = true := hstart
            rw [aggStep, hstart]
            simp only [if_true]
            cases hfind : (mainBuildingAggregated P).find? (fun p => decide (p.1 = i.location)) with
            | some p =>
                simp only [hfind, Option.isSome_some, if_true]
                rw [lookupAgg_updateAt, if_pos rfl]
                have hlook0 : lookupAgg (mainBuildingAggregated P) i.location = some p.2 := by
                  rw [lookupAgg, hfind]
                  rfl
                have hrun := hlook0
                rw [ih, if_pos hkstart] at hrun
                have hfi : List.filter (fun j => decide (j.location = i.location)) [i] = [i] := by
                  simp
                rw [hlook0, hfi, runAgg_append, hrun]
                rfl
            | none =>
                simp only [hfind, Option.isSome_none, Bool.false_eq_true, if_false]
                rw [lookupAgg_updateAt, if_pos rfl]
                rw [lookupAgg_append_self _ _ _ hfind]
                have hlook0 : lookupAgg (mainBuildingAggregated P) i.location = none := by
                  rw [lookupAgg, hfind]
                  rfl
                have hrun := hlook0
                rw [ih, if_pos hkstart] at hrun
                have hfi : List.filter (fun j => decide (j.location = i.location)) [i] = [i] := by
                  simp
                rw [hfi, runAgg_append, hrun]
                simp
          · have hagg : lookupAgg (aggStep (mainBuildingAggregated P) i) k =
                lookupAgg (mainBuildingAggregated P) k := by
              rw [aggStep, hstart]
              simp only [if_true]
              cases hfind :
                  (mainBuildingAggregated P).find? (fun p => decide (p.1 = i.location)) with
              | some p =>
                  simp only [hfind, Option.isSome_some, if_true]
                  rw [lookupAgg_updateAt, if_neg (fun h => hk h.symm)]
              | none =>
                  simp only [hfind, Option.isSome_none, Bool.false_eq_true, if_false]
                  rw [lookupAgg_updateAt, if_neg (fun h => hk h.symm)]
                  exact lookupAgg_append_ne _ _ _ _ (fun h => hk h.symm)
            rw [hagg, ih]
            simp [hk]

/-- C6: an incident whose location neither starts with the
main-building prefix nor equals any registered facility name produces
no marker and is silently skipped by the overlay synchronization, while
every other incident is processed exactly as without it (the builder is
a total function, so no error can be raised). -/
theorem c6_unknown_location_skipped
    (l1 l2 : List Incident) (inc : Incident) (hid : Option Nat)
    (hmain : jsStartsWith inc.location "본관동" = false)
    (hfac : ∀ f ∈ facilities, f.name ≠ inc.location) :
    incidentMarkers (l1 ++ inc :: l2) hid = incidentMarkers (l1 ++ l2) hid := by
  have hfind : facilities.find? (fun f => decide (f.name = inc.location)) = none := by
    rw [List.find?_eq_none]
    intro f hf
    simpa using hfac f hf
  simp [incidentMarkers, List.filterMap_append, List.filterMap_cons, hmain, hfind]

/-- Witness for c6_unknown_location_skipped at a concrete store: the
location of the middle incident is not a facility name. -/
theorem c6_unknown_location_skipped_witness :
    incidentMarkers
        [⟨1, 100, "체육관", 2, "a"⟩, ⟨9, 150, "과학동", 1, "x"⟩, ⟨2, 200, "운동장", 3, "b"⟩] none =
      incidentMarkers [⟨1, 100, "체육관", 2, "a"⟩, ⟨2, 200, "운동장", 3, "b"⟩] none :=
  c6_unknown_location_skipped [⟨1, 100, "체육관", 2, "a"⟩] [⟨2, 200, "운동장", 3, "b"⟩]
    ⟨9, 150, "과학동", 1, "x"⟩ none (by decide) (by decide)

/-- C7: the incident list renders the store stably sorted by date in
descending order; on the dates 2024-01-05, 2024-03-01, 2024-02-10 (in
store order) the rendered order is 03-01, 02-10, 01-05. -/
theorem c7_sorted_descending :
    (∀ incidents : List Incident,
        (sortedIncidents incidents).Perm incidents ∧
        (sortedIncidents incidents).Pairwise (fun a b => b.date ≤ a.date)) ∧
    (sortedIncidents
        [⟨1, 20240105, "체육관", 1, "a"⟩, ⟨2, 20240301, "체육관", 1, "b"⟩,
         ⟨3, 20240210, "체육관", 1, "c"⟩]).map (fun i => i.id) = [2, 3, 1] :=
  ⟨fun incidents =>
    ⟨List.perm_insertionSort _ incidents, List.sorted_insertionSort _ incidents⟩,
   by decide⟩

/-- C8 fails as stated: a pointer move whose ray hits no interactive
object leaves the tooltip position unchanged instead of moving it to
the raw pointer coordinates.  Concretely, with no incident selected, a
tooltip at (0, 0) and no hovered object, a move to (5, 7) with no hit
keeps the tooltip x at 0. -/
theorem c8_counterexample :
    (onMouseMove none ⟨⟨0, 0, false, ⟨0, ""⟩⟩, none⟩ 5 7 none).tooltip.x = 0 ∧
    ((onMouseMove none ⟨⟨0, 0, false, ⟨0, ""⟩⟩, none⟩ 5 7 none).tooltip.x = 5 → False) := by
  decide

/-- C8 (amended): while no incident is selected, a pointer move whose
ray hits an interactive object always leaves the tooltip at the raw
pointer coordinates of the event, regardless of whether the hovered
object changed; a move with no hit leaves the tooltip position
unchanged. -/
theorem c8_tooltip_position (st : PointerState) (evX evY : Int) :
    (∀ h : HitObject,
        (onMouseMove none st evX evY (some h)).tooltip.x = evX ∧
        (onMouseMove none st evX evY (some h)).tooltip.y = evY) ∧
    ((onMouseMove none st evX evY none).tooltip.x = st.tooltip.x ∧
     (onMouseMove none st evX evY none).tooltip.y = st.tooltip.y) := by
  refine ⟨fun h => ⟨rfl, rfl⟩, ?_⟩
  cases hh : st.hovered <;> simp [onMouseMove, hh]

/-- C9 fails as stated: two submissions that happen in the same
millisecond receive the same Date.now() value and therefore the same
id, so a reachable store can hold duplicate ids. -/
theorem c9_counterexample :
    (addIncidents [(5, ⟨100, "체육관", 1, "a"⟩), (5, ⟨200, "체육관", 1, "b"⟩)]).map
        (fun i => i.id) = [5, 5] ∧
    ¬ ((addIncidents [(5, ⟨100, "체육관", 1, "a"⟩), (5, ⟨200, "체육관", 1, "b"⟩)]).map
        (fun i => i.id)).Nodup := by
  decide

/-- Ids of a store built by a submission sequence are exactly the
submission timestamps, in order. -/
theorem addIncidents_ids (subs : List (Nat × IncidentForm)) :
    (addIncidents subs).map (fun i => i.id) = subs.map (fun p => p.1) := by
  suffices h : ∀ (subs : List (Nat × IncidentForm)) (acc : List Incident),
      ((subs.foldl (fun s p => handleAddIncident s p.1 p.2) acc).map (fun i => i.id)) =
        acc.map (fun i => i.id) ++ subs.map (fun p => p.1) by
    simpa [addIncidents] using h subs []
  intro subs
  induction subs with
  | nil => intro acc; simp
  | cons p t ih =>
      intro acc
      rw [List.foldl_cons, ih]
      simp [handleAddIncident]

/-- C9 (amended): every form submission appends exactly one incident to
the end of the store, with id equal to the Date.now() value of that
submission; all ids in a reachable store are pairwise distinct provided
the submission timestamps are pairwise distinct (which uniqueness of
Date.now() values the code silently assumes). -/
theorem c9_unique_ids :
    (∀ (s : List Incident) (now : Nat) (form : IncidentForm),
        handleAddIncident s now form =
          s ++ [{ id := now, date := form.date, location := form.location,
                  count := form.count, cause := form.cause }]) ∧
    (∀ subs : List (Nat × IncidentForm),
        (subs.map (fun p => p.1)).Nodup →
          ((addIncidents subs).map (fun i => i.id)).Nodup) := by
  refine ⟨fun s now form => rfl, fun subs h => ?_⟩
  rw [addIncidents_ids]
  exact h

/-- Witness for c9_unique_ids: two submissions in distinct milliseconds
yield a store with distinct ids. -/
theorem c9_unique_ids_witness :
    ((addIncidents [(5, ⟨100, "체육관", 1, "a"⟩), (7, ⟨200, "체육관", 1, "b"⟩)]).map
        (fun i => i.id)).Nodup :=
  c9_unique_ids.2 [(5, ⟨100, "체육관", 1, "a"⟩), (7, ⟨200, "체육관", 1, "b"⟩)] (by decide)

/-- C10 fails as stated: at bound 0 the JavaScript slice end index is
-1, which counts from the end of the string, so truncate "ab" 0 keeps
the first length - 1 characters and appends the dots, producing a
string of length 4 rather than the claimed n + 2 = 2. -/
theorem c10_counterexample :
    truncate "ab" 0 = "a..." ∧ ((truncate "ab" 0).length = 0 + 2 → False) := by
  decide

/-- C10 (amended): for every positive bound n, truncate returns the
string unchanged when its length is at most n, and otherwise the first
n - 1 characters followed by the three dots, a string of length n + 2;
the incident list applies truncate with bound 25 to the cause field.
(At bound 0 the JavaScript end index n - 1 is -1 and counts from the
end of the string, so the claim holds only from bound 1 on.) -/
theorem c10_truncate (s : String) (n : Nat) (hn : 1 ≤ n) :
    (s.length ≤ n → truncate s n = s) ∧
    (n < s.length →
      truncate s n = (s.data.take (n - 1)).asString ++ "..." ∧
      (truncate s n).length = n + 2) ∧
    (∀ i : Incident, renderedCause i = truncate i.cause 25) := by
  refine ⟨fun h => ?_, fun h => ?_, fun i => rfl⟩
  · rw [truncate, if_neg (by omega)]
  · have hdata : s.data.length = s.length := rfl
    have hsl : jsSlice s 0 ((n : Int) - 1) = (s.data.take (n - 1)).asString := by
      rw [jsSlice]
      have h0 : ¬ ((0 : Int) < 0) := by omega
      have h1 : ¬ ((n : Int) - 1 < 0) := by omega
      simp only [h0, h1, if_false]
      have hmin0 : min (0 : Int) ((s.length : Nat) : Int) = 0 :=
        min_eq_left (by exact_mod_cast Nat.zero_le _)
      have hmin1 : min ((n : Int) - 1) ((s.length : Nat) : Int) = (n : Int) - 1 :=
        min_eq_left (by omega)
      rw [hmin0, hmin1]
      have htn : (((n : Int) - 1) - 0).toNat = n - 1 := by omega
      rw [htn]
      norm_num
    have htr : truncate s n = (s.data.take (n - 1)).asString ++ "..." := by
      rw [truncate, if_pos (by omega), hsl]
    refine ⟨htr, ?_⟩
    rw [htr, String.length_append, List.length_asString, List.length_take, hdata]
    have : min (n - 1) s.length = n - 1 := min_eq_left (by omega)
    rw [this]
    have hd : ("..." : String).length = 3 := rfl
    rw [hd]
    omega

/-- Witness for c10_truncate at the concrete bound 3 and a string of
length 6. -/
theorem c10_truncate_witness :
    truncate "abcdef" 3 = ("abcdef".data.take 2).asString ++ "..." ∧
    (truncate "abcdef" 3).length = 3 + 2 :=
  (c10_truncate "abcdef" 3 (by decide)).2.1 (by decide)

/-- Sum of counts distributes over append. -/
theorem sumCounts_append (l1 l2 : List Incident) :
    sumCounts (l1 ++ l2) = sumCounts l1 + sumCounts l2 := by
  simp [sumCounts]

/-- The count accumulated by the reference aggregation is the sum of
the counts of the aggregated incidents. -/
theorem runAgg_count (l : List Incident) (e : AggEntry) (h : runAgg l = some e) :
    e.count = sumCounts l := by
  induction l using List.reverseRecOn generalizing e with
  | nil => simp [runAgg] at h
  | append_singleton t i ih =>
      rw [runAgg_append] at h
      cases ht : runAgg t with
      | none =>
          rw [ht] at h
          obtain rfl := Option.some.inj h
          have ht0 := runAgg_eq_none t ht
          subst ht0
          simp [sumCounts]
      | some e0 =>
          rw [ht] at h
          obtain rfl := Option.some.inj h
          have hc := ih e0 ht
          show e0.count + i.count = sumCounts (t ++ [i])
          rw [sumCounts_append, hc]
          simp [sumCounts]

/-- The latest incident tracked by the reference aggregation is one of
the aggregated incidents. -/
theorem runAgg_latest_mem (l : List Incident) (e : AggEntry) (h : runAgg l = some e) :
    e.latestIncident ∈ l := by
  induction l using List.reverseRecOn generalizing e with
  | nil => simp [runAgg] at h
  | append_singleton t i ih =>
      rw [runAgg_append] at h
      cases ht : runAgg t with
      | none =>
          rw [ht] at h
          obtain rfl := Option.some.inj h
          simp
      | some e0 =>
          rw [ht] at h
          obtain rfl := Option.some.inj h
          show (if i.date > e0.latestIncident.date then i else e0.latestIncident) ∈ t ++ [i]
          by_cases hd : i.date > e0.latestIncident.date
          · simp [hd]
          · have := ih e0 ht
            simp [hd, List.mem_append, this]

/-- The latest incident tracked by the reference aggregation has the
maximum date among the aggregated incidents. -/
theorem runAgg_latest_max (l : List Incident) (e : AggEntry) (h : runAgg l = some e) :
    ∀ j ∈ l, j.date ≤ e.latestIncident.date := by
  induction l using List.reverseRecOn generalizing e with
  | nil => simp [runAgg] at h
  | append_singleton t i ih =>
      rw [runAgg_append] at h
      cases ht : runAgg t with
      | none =>
          rw [ht] at h
          obtain rfl := Option.some.inj h
          have ht0 := runAgg_eq_none t ht
          subst ht0
          intro j hj
          have : j = i := by simpa using hj
          subst this
          exact le_refl _
      | some e0 =>
          rw [ht] at h
          obtain rfl := Option.some.inj h
          intro j hj
          show j.date ≤ (if i.date > e0.latestIncident.date then i else e0.latestIncident).date
          rcases List.mem_append.mp hj with hjt | hji
          · have hje := ih e0 ht j hjt
            by_cases hd : i.date > e0.latestIncident.date
            · rw [if_pos hd]
              exact le_trans hje (le_of_lt hd)
            · rw [if_neg hd]
              exact hje
          · have : j = i := by simpa using hji
            subst this
            by_cases hd : j.date > e0.latestIncident.date
            · rw [if_pos hd]
            · rw [if_neg hd]
              exact le_of_not_lt hd

/-- Among the aggregated incidents whose date equals the tracked
maximum, the tracked latest incident is the first in list order. -/
theorem runAgg_latest_head (l : List Incident) (e : AggEntry) (h : runAgg l = some e) :
    (l.filter (fun j => decide (j.date = e.latestIncident.date))).head? =
      some e.latestIncident := by
  induction l using List.reverseRecOn generalizing e with
  | nil => simp [runAgg] at h
  | append_singleton t i ih =>
      rw [runAgg_append] at h
      cases ht : runAgg t with
      | none =>
          rw [ht] at h
          obtain rfl := Option.some.inj h
          have ht0 := runAgg_eq_none t ht
          subst ht0
          simp
      | some e0 =>
          rw [ht] at h
          obtain rfl := Option.some.inj h
          by_cases hd : i.date > e0.latestIncident.date
          · show (List.filter
                (fun j => decide (j.date =
                  (if i.date > e0.latestIncident.date then i else e0.latestIncident).date))
                (t ++ [i])).head? =
              some (if i.date > e0.latestIncident.date then i else e0.latestIncident)
            rw [if_pos hd]
            have hmax := runAgg_latest_max t e0 ht
            have hfl : t.filter (fun j => decide (j.date = i.date)) = [] := by
              rw [List.filter_eq_nil_iff]
              intro a ha
              have := hmax a ha
              simp only [decide_eq_true_eq]
              omega
            rw [List.filter_append, hfl]
            simp
          · show (List.filter
                (fun j => decide (j.date =
                  (if i.date > e0.latestIncident.date then i else e0.latestIncident).date))
                (t ++ [i])).head? =
              some (if i.date > e0.latestIncident.date then i else e0.latestIncident)
            rw [if_neg hd]
            rw [List.filter_append, List.head?_append, ih e0 ht]
            rfl

/-- updateAt never changes the key column. -/
theorem updateAt_keys (loc : String) (g : AggEntry → AggEntry)
    (acc : List (String × AggEntry)) :
    (updateAt loc g acc).map Prod.fst = acc.map Prod.fst := by
  rw [updateAt, List.map_map]
  congr 1
  funext p
  by_cases hp : p.1 = loc <;> simp [hp]

/-- One aggregation step keeps the keys of the record pairwise
distinct. -/
theorem aggStep_keys_nodup (acc : List (String × AggEntry)) (i : Incident)
    (h : (acc.map Prod.fst).Nodup) : ((aggStep acc i).map Prod.fst).Nodup := by
  rw [aggStep]
  cases hstart : jsStartsWith i.location "본관동" with
  | false => simpa using h
  | true =>
      simp only [if_true]
      by_cases hf : (acc.find? (fun p => decide (p.1 = i.location))).isSome
      · rw [if_pos hf, updateAt_keys]
        exact h
      · rw [if_neg hf, updateAt_keys]
        have hnone : acc.find? (fun p => decide (p.1 = i.location)) = none := by
          cases hc : acc.find? (fun p => decide (p.1 = i.location)) with
          | none => rfl
          | some p => rw [hc] at hf; simp at hf
        have hmem : i.location ∉ acc.map Prod.fst := by
          rw [List.find?_eq_none] at hnone
          intro hm
          obtain ⟨p, hp, hpe⟩ := List.mem_map.mp hm
          exact hnone p hp (decide_eq_true hpe)
        rw [List.map_append, List.nodup_append]
        refine ⟨h, by simp, ?_⟩
        intro a ha hb
        have : a = i.location := by simpa using hb
        subst this
        exact hmem ha

/-- The aggregation record built from any incident list has pairwise
distinct keys. -/
theorem mainBuildingAggregated_keys_nodup (P : List Incident) :
    ((mainBuildingAggregated P).map Prod.fst).Nodup := by
  suffices h : ∀ (l : List Incident) (acc : List (String × AggEntry)),
      (acc.map Prod.fst).Nodup → ((l.foldl aggStep acc).map Prod.fst).Nodup by
    exact h P [] (by simp)
  intro l
  induction l with
  | nil => intro acc h; simpa using h
  | cons i t ih => intro acc h; exact ih _ (aggStep_keys_nodup acc i h)

/-- In a record with pairwise distinct keys, every member is found by
looking up its own key. -/
theorem lookupAgg_of_mem :
    ∀ (agg : List (String × AggEntry)), (agg.map Prod.fst).Nodup →
      ∀ p ∈ agg, lookupAgg agg p.1 = some p.2 := by
  intro agg
  induction agg with
  | nil => intro _ p hp; cases hp
  | cons q t ih =>
      intro hnd p hp
      have hnd1 : q.1 ∉ t.map Prod.fst ∧ (t.map Prod.fst).Nodup := by
        rw [List.map_cons] at hnd
        exact List.nodup_cons.mp hnd
      rcases List.mem_cons.mp hp with rfl | hpt
      · simp [lookupAgg, List.find?]
      · have hq : ¬ (q.1 = p.1) := by
          intro he
          exact hnd1.1 (he ▸ List.mem_map.mpr ⟨p, hpt, rfl⟩)
        have htail := ih hnd1.2 p hpt
        rw [lookupAgg] at htail ⊢
        rw [List.find?_cons_of_neg _ (by simpa using hq)]
        exact htail

/-- One step of the marker builder, split off the head incident. -/
theorem incidentMarkers_cons (i : Incident) (t : List Incident) (hid : Option Nat) :
    incidentMarkers (i :: t) hid =
      (if jsStartsWith i.location "본관동" then []
       else
        match facilities.find? (fun f => decide (f.name = i.location)) with
        | none => []
        | some _ => [(⟨i, decide (hid = some i.id)⟩ : Marker)]) ++
        incidentMarkers t hid := by
  rw [incidentMarkers, incidentMarkers, List.filterMap_cons]
  cases hstart : jsStartsWith i.location "본관동" with
  | true => simp [hstart]
  | false =>
      cases hr : facilities.find? (fun f => decide (f.name = i.location)) <;>
        simp [hstart, hr]

/-- The markers of the overlay that sit at a registered
non-main-building facility are exactly one marker per incident stored
at that facility, each tagged with its incident. -/
theorem incidentMarkers_filter (incidents : List Incident) (hid : Option Nat) (name : String)
    (hmain : jsStartsWith name "본관동" = false)
    (hreg : (facilities.find? (fun f => decide (f.name = name))).isSome) :
    ((incidentMarkers incidents hid).filter
        (fun m => decide (m.incident.location = name))).map (fun m => m.incident) =
      incidents.filter (fun i => decide (i.location = name)) := by
  induction incidents with
  | nil => rfl
  | cons i t ih =>
      rw [incidentMarkers_cons, List.filter_append, List.map_append, ih, List.filter_cons]
      by_cases hloc : i.location = name
      · have hstart : jsStartsWith i.location "본관동" = false := by rw [hloc]; exact hmain
        cases hr : facilities.find? (fun f => decide (f.name = i.location)) with
        | none =>
            exfalso
            rw [hloc] at hr
            rw [hr] at hreg
            simp at hreg
        | some f0 => simp [hstart, hr, hloc, hmain]
      · cases hstart : jsStartsWith i.location "본관동" with
        | true => simp [hloc]
        | false =>
            cases hr : facilities.find? (fun f => decide (f.name = i.location)) with
            | none => simp [hloc, hr]
            | some f0 => simp [hloc, hr]

/-- C1: after the overlay synchronization, the aggregated label of a
main-building sub-location displays exactly the sum of the counts of
the incidents whose location equals that sub-location key, and at every
registered non-main-building facility the total of the counts displayed
by its markers equals the sum of the counts of the incidents stored at
that facility. -/
theorem c1_overlay_counts (incidents : List Incident) (hid : Option Nat) :
    (∀ lbl ∈ mainBuildingLabels incidents hid,
        lbl.count = sumCounts (incidents.filter (fun i => decide (i.location = lbl.location)))) ∧
    (∀ f ∈ facilities, jsStartsWith f.name "본관동" = false →
        sumCounts (((incidentMarkers incidents hid).filter
            (fun m => decide (m.incident.location = f.name))).map (fun m => m.incident)) =
          sumCounts (incidents.filter (fun i => decide (i.location = f.name)))) := by
  constructor
  · intro lbl hlbl
    obtain ⟨p, hp, hfp⟩ := List.mem_filterMap.mp hlbl
    cases hq : mainBuildingParts.find? (fun q => decide (q.1 = p.1)) with
    | none => rw [hq] at hfp; simp at hfp
    | some q =>
        rw [hq] at hfp
        cases hr : facilities.find? (fun f => decide (f.name = p.1)) with
        | none => rw [hr] at hfp; simp at hfp
        | some f0 =>
            rw [hr] at hfp
            obtain rfl := Option.some.inj hfp
            show p.2.count = sumCounts (incidents.filter (fun i => decide (i.location = p.1)))
            have hl : lookupAgg (mainBuildingAggregated incidents) p.1 = some p.2 :=
              lookupAgg_of_mem _ (mainBuildingAggregated_keys_nodup incidents) p hp
            rw [lookupAgg_mainBuildingAggregated] at hl
            by_cases hs : jsStartsWith p.1 "본관동" = true
            · rw [if_pos hs] at hl
              exact runAgg_count _ _ hl
            · rw [if_neg hs] at hl
              cases hl
  · intro f hf hmain
    have hreg : (facilities.find? (fun g => decide (g.name = f.name))).isSome := by
      rw [List.find?_isSome]
      exact ⟨f, hf, by simp⟩
    rw [incidentMarkers_filter incidents hid f.name hmain hreg]

/-- Witness for c1_overlay_counts on the concrete store demoIncidents:
the classroom label displays 7 = 2 + 5 and the gymnasium marker total
is 3. -/
theorem c1_overlay_counts_witness :
    ((⟨"본관동 - 교실", 7, ⟨2, 200, "본관동 - 교실", 5, "b"⟩, false⟩ : MainLabel).count =
        sumCounts (demoIncidents.filter (fun i => decide (i.location =
          (⟨"본관동 - 교실", 7, ⟨2, 200, "본관동 - 교실", 5, "b"⟩, false⟩ : MainLabel).location)))) ∧
    sumCounts (((incidentMarkers demoIncidents none).filter
        (fun m => decide (m.incident.location = "체육관"))).map (fun m => m.incident)) =
      sumCounts (demoIncidents.filter (fun i => decide (i.location = "체육관"))) :=
  ⟨(c1_overlay_counts demoIncidents none).1
      ⟨"본관동 - 교실", 7, ⟨2, 200, "본관동 - 교실", 5, "b"⟩, false⟩ (by decide),
   (c1_overlay_counts demoIncidents none).2
      ⟨"체육관", (15, 4, 10), (15, 8, 12), "#0000FF", FacilityKind.box⟩ (by decide) (by decide)⟩

/-- C2 fails as stated: on a date tie the aggregation keeps the
incident encountered first, because replacement requires a strictly
greater date.  With two equal-date incidents at the classroom
sub-location, the tracked latest incident is the first one (id 1), not
the last one (id 2). -/
theorem c2_counterexample :
    (lookupAgg (mainBuildingAggregated
        [⟨1, 100, "본관동 - 교실", 1, "a"⟩, ⟨2, 100, "본관동 - 교실", 1, "b"⟩])
        "본관동 - 교실").map (fun e => e.latestIncident.id) = some 1 ∧
    ((lookupAgg (mainBuildingAggregated
        [⟨1, 100, "본관동 - 교실", 1, "a"⟩, ⟨2, 100, "본관동 - 교실", 1, "b"⟩])
        "본관동 - 교실").map (fun e => e.latestIncident.id) = some 2 → False) := by
  decide

/-- C2 (amended): in the main-building aggregation the tracked latest
incident of each sub-location is an incident of that sub-location with
the maximum date, and when several incidents of the sub-location share
that maximal date, the one encountered first in insertion order wins
(replacement happens only on a strictly greater date), not the last
one. -/
theorem c2_latest_incident (P : List Incident) (k : String) (e : AggEntry)
    (h : lookupAgg (mainBuildingAggregated P) k = some e) :
    e.latestIncident ∈ P ∧
    e.latestIncident.location = k ∧
    (∀ j ∈ P, j.location = k → j.date ≤ e.latestIncident.date) ∧
    ((P.filter (fun j => decide (j.location = k))).filter
        (fun j => decide (j.date = e.latestIncident.date))).head? =
      some e.latestIncident := by
  rw [lookupAgg_mainBuildingAggregated] at h
  by_cases hs : jsStartsWith k "본관동" = true
  · rw [if_pos hs] at h
    have hmem := runAgg_latest_mem _ _ h
    have hmem2 := List.mem_filter.mp hmem
    refine ⟨hmem2.1, by simpa using hmem2.2, ?_, runAgg_latest_head _ _ h⟩
    intro j hj hjk
    exact runAgg_latest_max _ _ h j
      (List.mem_filter.mpr ⟨hj, decide_eq_true hjk⟩)
  · rw [if_neg hs] at h
    cases h

/-- Witness for c2_latest_incident on demoIncidents: the classroom
entry sums to 7 and tracks the incident with id 2 and date 200, the
unique and hence first incident of maximal date. -/
theorem c2_latest_incident_witness :
    (⟨7, ⟨2, 200, "본관동 - 교실", 5, "b"⟩⟩ : AggEntry).latestIncident ∈ demoIncidents ∧
    ((demoIncidents.filter (fun j => decide (j.location = "본관동 - 교실"))).filter
        (fun j => decide (j.date =
          (⟨7, ⟨2, 200, "본관동 - 교실", 5, "b"⟩⟩ : AggEntry).latestIncident.date))).head? =
      some (⟨7, ⟨2, 200, "본관동 - 교실", 5, "b"⟩⟩ : AggEntry).latestIncident :=
  ⟨(c2_latest_incident demoIncidents "본관동 - 교실"
      ⟨7, ⟨2, 200, "본관동 - 교실", 5, "b"⟩⟩ (by decide)).1,
   (c2_latest_incident demoIncidents "본관동 - 교실"
      ⟨7, ⟨2, 200, "본관동 - 교실", 5, "b"⟩⟩ (by decide)).2.2.2⟩

/-- Restoring no records changes nothing. -/
theorem restoreAll_nil (m : Nat → Option MatRef) : restoreAll [] m = m := rfl

/-- Restoring splits off its last record. -/
theorem restoreAll_append1 (hl : List (Nat × MatRef)) (q : Nat × MatRef)
    (m : Nat → Option MatRef) :
    restoreAll (hl ++ [q]) m = setMat (restoreAll hl m) q.1 (some q.2) := by
  rw [restoreAll, restoreAll, List.foldl_append]
  rfl

/-- Pointwise value of a restoration: the last record for the key wins,
otherwise the underlying map is read. -/
theorem restoreAll_apply (hl : List (Nat × MatRef)) (m : Nat → Option MatRef) (k : Nat) :
    restoreAll hl m k =
      (hl.reverse.find? (fun p => decide (p.1 = k))).elim (m k) (fun p => some p.2) := by
  induction hl generalizing m with
  | nil => simp [restoreAll]
  | cons p t ih =>
      have hstep : restoreAll (p :: t) m = restoreAll t (setMat m p.1 (some p.2)) := rfl
      rw [hstep, ih, List.reverse_cons, List.find?_append]
      cases hf : t.reverse.find? (fun q => decide (q.1 = k)) with
      | some q => simp
      | none =>
          simp only [Option.none_or]
          by_cases hk : p.1 = k
          · rw [List.find?_cons_of_pos _ (by simpa using hk)]
            simp only [setMat, Option.elim]
            rw [if_pos hk.symm]
          · rw [List.find?_cons_of_neg _ (by simpa using hk), List.find?_nil]
            simp only [setMat, Option.elim]
            rw [if_neg (fun h => hk h.symm)]

/-- Keys that were never recorded are not found in the record list. -/
theorem find?_reverse_eq_none_of_not_recorded (hl : List (Nat × MatRef)) (o : Nat)
    (h : ¬ hl.any (fun x => decide (x.1 = o)) = true) :
    hl.reverse.find? (fun p => decide (p.1 = o)) = none := by
  rw [List.find?_eq_none]
  intro x hx
  intro hdec
  exact h (List.any_eq_true.mpr ⟨x, List.mem_reverse.mp hx, hdec⟩)

/-- One highlight step leaves the full restoration of the state
pointwise unchanged: whatever one step clones and records, restoring
all records afterwards still yields the same materials. -/
theorem highlightStep_restore (s : HighlightState) (obj : SceneObject) (k : Nat) :
    restoreAll (highlightStep s obj).highlighted (highlightStep s obj).mats k =
      restoreAll s.highlighted s.mats k := by
  rw [highlightStep]
  by_cases hg : obj.isGroup
  · rw [if_pos hg]
  · rw [if_neg hg]
    cases hm : s.mats obj.oid with
    | none => rfl
    | some om =>
        by_cases hrec : s.highlighted.any (fun x => decide (x.1 = obj.oid)) = true
        · simp only [hrec, if_true]
        · simp only [hrec, Bool.false_eq_true, if_false]
          rw [restoreAll_append1]
          have hre := find?_reverse_eq_none_of_not_recorded s.highlighted obj.oid hrec
          by_cases hk : k = obj.oid
          · subst hk
            have hr2 : restoreAll s.highlighted s.mats obj.oid = some om := by
              rw [restoreAll_apply, hre]
              exact hm
            rw [hr2]
            simp [setMat]
          · simp only [setMat, if_neg hk]
            rw [restoreAll_apply, restoreAll_apply]
            simp [setMat, hk]

/-- The restoration invariant holds across a whole highlight pass. -/
theorem foldl_highlightStep_restore (l : List SceneObject) (s : HighlightState) (k : Nat) :
    restoreAll (l.foldl highlightStep s).highlighted (l.foldl highlightStep s).mats k =
      restoreAll s.highlighted s.mats k := by
  induction l generalizing s with
  | nil => rfl
  | cons o t ih => rw [List.foldl_cons, ih, highlightStep_restore]

/-- A highlight step never touches the scene graph. -/
theorem highlightStep_scene (s : HighlightState) (obj : SceneObject) :
    (highlightStep s obj).scene = s.scene := by
  rw [highlightStep]
  by_cases hg : obj.isGroup
  · rw [if_pos hg]
  · rw [if_neg hg]
    cases hm : s.mats obj.oid with
    | none => rfl
    | some om =>
        by_cases hrec : s.highlighted.any (fun x => decide (x.1 = obj.oid)) = true
        · simp only [hrec, if_true]
        · simp only [hrec, Bool.false_eq_true, if_false]

/-- A highlight pass never touches the scene graph. -/
theorem foldl_highlightStep_scene (l : List SceneObject) (s : HighlightState) :
    (l.foldl highlightStep s).scene = s.scene := by
  induction l generalizing s with
  | nil => rfl
  | cons o t ih => rw [List.foldl_cons, ih, highlightStep_scene]

/-- C3: starting from a state with no active highlight records (the
invariant between passes), highlightObjectsByLocation followed by
unhighlightAllObjects leaves every object with a material
reference-equal to the one it had before the highlight call, and
leaves the highlight record list empty. -/
theorem c3_highlight_roundtrip (s : HighlightState) (loc : String)
    (hclean : s.highlighted = []) :
    (unhighlightAllObjects (highlightObjectsByLocation s loc)).highlighted = [] ∧
    ∀ k, (unhighlightAllObjects (highlightObjectsByLocation s loc)).mats k = s.mats k := by
  refine ⟨rfl, fun k => ?_⟩
  show restoreAll (highlightObjectsByLocation s loc).highlighted
      (highlightObjectsByLocation s loc).mats k = s.mats k
  rw [highlightObjectsByLocation]
  rw [foldl_highlightStep_restore]
  show restoreAll [] (restoreAll s.highlighted s.mats) k = s.mats k
  rw [restoreAll_nil, hclean, restoreAll_nil]

/-- Witness for c3_highlight_roundtrip on the concrete demo state,
highlighting the gymnasium. -/
theorem c3_highlight_roundtrip_witness :
    (unhighlightAllObjects (highlightObjectsByLocation demoState "체육관")).highlighted = [] ∧
    (unhighlightAllObjects (highlightObjectsByLocation demoState "체육관")).mats 0 =
      demoState.mats 0 :=
  ⟨(c3_highlight_roundtrip demoState "체육관" rfl).1,
   (c3_highlight_roundtrip demoState "체육관" rfl).2 0⟩

/-- Objects not processed by a pass keep their material untouched. -/
theorem mats_unchanged_of_not_targeted (l : List SceneObject) (s : HighlightState) (k : Nat)
    (h : ∀ o ∈ l, o.oid ≠ k) :
    (l.foldl highlightStep s).mats k = s.mats k := by
  induction l generalizing s with
  | nil => rfl
  | cons o t ih =>
      rw [List.foldl_cons, ih _ (fun x hx => h x (List.mem_cons_of_mem _ hx))]
      have ho := h o (List.mem_cons_self _ _)
      rw [highlightStep]
      by_cases hg : o.isGroup
      · rw [if_pos hg]
      · rw [if_neg hg]
        cases hm : s.mats o.oid with
        | none => rfl
        | some om =>
            by_cases hrec : s.highlighted.any (fun x => decide (x.1 = o.oid)) = true
            · simp only [hrec, if_true]
            · simp only [hrec, Bool.false_eq_true, if_false, setMat]
              rw [if_neg (fun he => ho he.symm)]

/-- C4: from a state with no active highlight records, highlighting
location A and then location B leaves no object that matches only A
highlighted: the second call first restores every material saved by the
first call, so the material of any scene object that matches A, does
not match B and is not the main-building frame swept in by a
main-building location B ends up reference-equal to its value before
both calls. -/
theorem c4_highlight_switch (s : HighlightState) (A B : String) (obj : SceneObject)
    (hclean : s.highlighted = [])
    (hnd : (s.scene.map (fun o => o.oid)).Nodup)
    (hmem : obj ∈ s.scene)
    (hA : matchesLocation obj A = true)
    (hB : matchesLocation obj B = false)
    (hframe : ¬ (jsStartsWith B "본관동" = true ∧ obj.name = "본관동")) :
    (highlightObjectsByLocation (highlightObjectsByLocation s A) B).mats obj.oid =
      s.mats obj.oid := by
  have hinj := List.inj_on_of_nodup_map hnd
  have hs1scene : (highlightObjectsByLocation s A).scene = s.scene := by
    rw [highlightObjectsByLocation, foldl_highlightStep_scene]
    rfl
  have hmats0 : ∀ k,
      (unhighlightAllObjects (highlightObjectsByLocation s A)).mats k = s.mats k := by
    intro k
    show restoreAll (highlightObjectsByLocation s A).highlighted
        (highlightObjectsByLocation s A).mats k = s.mats k
    rw [highlightObjectsByLocation, foldl_highlightStep_restore]
    show restoreAll [] (restoreAll s.highlighted s.mats) k = s.mats k
    rw [restoreAll_nil, hclean, restoreAll_nil]
  have hscene0 : (unhighlightAllObjects (highlightObjectsByLocation s A)).scene = s.scene :=
    hs1scene
  have htargets : ∀ o ∈ collectTargets s.scene B, o.oid ≠ obj.oid := by
    intro o ho he
    rw [collectTargets] at ho
    rcases List.mem_append.mp ho with hfil | hextra
    · have hmem2 := List.mem_filter.mp hfil
      have hoe : o = obj := hinj hmem2.1 hmem he
      subst hoe
      rw [hB] at hmem2
      exact Bool.noConfusion hmem2.2
    · cases hsB : jsStartsWith B "본관동" with
      | false =>
          rw [hsB] at hextra
          simp at hextra
      | true =>
          rw [hsB] at hextra
          cases hfr : s.scene.find? (fun x => decide (x.name = "본관동")) with
          | none =>
              rw [hfr] at hextra
              simp at hextra
          | some fr =>
              rw [hfr] at hextra
              have hofr : o = fr := by simpa using hextra
              subst hofr
              have hfrmem := List.mem_of_find?_eq_some hfr
              have hfrname : o.name = "본관동" := by simpa using List.find?_some hfr
              have hoe : o = obj := hinj hfrmem hmem he
              exact hframe ⟨hsB, hoe ▸ hfrname⟩
  rw [highlightObjectsByLocation, hscene0]
  rw [mats_unchanged_of_not_targeted _ _ _ htargets]
  exact hmats0 obj.oid

/-- Witness for c4_highlight_switch on the demo state: highlight the
gymnasium, then the cafeteria; the gymnasium mesh gets its original
material back. -/
theorem c4_highlight_switch_witness :
    (highlightObjectsByLocation (highlightObjectsByLocation demoState "체육관") "급식실").mats 0 =
      demoState.mats 0 :=
  c4_highlight_switch demoState "체육관" "급식실" ⟨0, "체육관", some "체육관", false⟩ rfl
    (by decide) (by decide) (by decide) (by decide) (by decide)

/-- One highlight step keeps the recorded object identities pairwise
distinct: an object whose original material is already saved is never
saved again. -/
theorem keysNodup_highlightStep (s : HighlightState) (o : SceneObject)
    (h : (s.highlighted.map Prod.fst).Nodup) :
    ((highlightStep s o).highlighted.map Prod.fst).Nodup := by
  rw [highlightStep]
  by_cases hg : o.isGroup
  · rw [if_pos hg]; exact h
  · rw [if_neg hg]
    cases hm : s.mats o.oid with
    | none => exact h
    | some om =>
        by_cases hrec : s.highlighted.any (fun x => decide (x.1 = o.oid)) = true
        · simp only [hrec, if_true]; exact h
        · simp only [hrec, Bool.false_eq_true, if_false]
          rw [List.map_append, List.nodup_append]
          refine ⟨h, by simp, ?_⟩
          intro a ha hb
          have hb2 : a = o.oid := by simpa using hb
          subst hb2
          obtain ⟨p, hp, hpe⟩ := List.mem_map.mp ha
          exact hrec (List.any_eq_true.mpr ⟨p, hp, decide_eq_true hpe⟩)

/-- Recorded object identities stay pairwise distinct across any list
of highlight steps. -/
theorem keysNodup_foldl_highlightStep (l : List SceneObject) (s : HighlightState)
    (h : (s.highlighted.map Prod.fst).Nodup) :
    ((l.foldl highlightStep s).highlighted.map Prod.fst).Nodup := by
  induction l generalizing s with
  | nil => exact h
  | cons o t ih =>
      rw [List.foldl_cons]
      exact ih _ (keysNodup_highlightStep s o h)

/-- C5: at every point during and after a highlight pass the record
list holds at most one record per scene object.  A pass starts from the
cleared record list, and after processing any prefix of the collected
targets the recorded object identities are pairwise distinct, so a
saved original material is never overwritten by a cloned highlight
material. -/
theorem c5_no_double_save (s : HighlightState) (loc : String) (l1 l2 : List SceneObject)
    (hsplit : collectTargets (unhighlightAllObjects s).scene loc = l1 ++ l2) :
    ((l1.foldl highlightStep (unhighlightAllObjects s)).highlighted.map Prod.fst).Nodup :=
  keysNodup_foldl_highlightStep l1 (unhighlightAllObjects s) List.nodup_nil

/-- Witness for c5_no_double_save: the full target list of a gymnasium
pass on the demo state, split after its only element. -/
theorem c5_no_double_save_witness :
    ((([(⟨0, "체육관", some "체육관", false⟩ : SceneObject)] : List SceneObject).foldl
        highlightStep (unhighlightAllObjects demoState)).highlighted.map Prod.fst).Nodup :=
  c5_no_double_save demoState "체육관" [⟨0, "체육관", some "체육관", false⟩] [] (by decide)
